import Mathlib

/-!
# Verification of `paddlespeech/t2s/modules/losses.py`

A shallow embedding, over the real numbers (exact arithmetic), of the loss
functions defined in `paddlespeech/t2s/modules/losses.py`, together with
theorems settling the specification claims about them.

Tensors are embedded as index functions `ℕ → ... → ℝ` with the relevant
dimensions carried separately; reductions (`paddle.sum`, `paddle.mean`,
Frobenius norms) become `Finset.range` sums.  External library primitives
that the file merely calls (`paddle.signal.stft`, the mel filterbank from
`librosa`, the window-name table of `scipy.signal.windows`) are abstracted
as explicit parameters, while everything the file itself computes is
translated directly from the source.
-/

open Finset

namespace Losses

/-! ## `attention_guide` (losses.py lines 333-354)

`paddle.fluid.layers.sequence_mask(lens, maxlen)` is an external paddle
primitive whose entry `(b, n)` is `1` when `n < lens[b]` and `0` otherwise;
we embed that semantics directly. -/

/-- Entry `(b, n)` of `sequence_mask(lens, maxlen)` as a `0`/`1` real. -/
noncomputable def sequence_mask (lens : ℕ → ℕ) (b n : ℕ) : ℝ :=
  if n < lens b then 1 else 0

/-- Entry `(b, n, t)` of the tensor returned by `attention_guide`:
`W = 1 - exp(-(dec_pos - enc_pos)^2 / (2 g^2))` multiplied by the
product of the decoder and encoder sequence masks (`W *= mask`). -/
noncomputable def attention_guide (dec_lens enc_lens : ℕ → ℕ) (g : ℝ) (b n t : ℕ) : ℝ :=
  let dec_pos : ℝ := (n : ℝ) / (dec_lens b : ℝ)
  let enc_pos : ℝ := (t : ℝ) / (enc_lens b : ℝ)
  let W : ℝ := 1 - Real.exp (-((dec_pos - enc_pos) ^ 2) / (2 * g ^ 2))
  W * (sequence_mask dec_lens b n * sequence_mask enc_lens b t)

/-- Embeds `guided_attention_loss` (losses.py lines 357-364): mean over the batch of
`sum(W * attention_weight, [1, 2]) / (dec_lens * enc_lens)`. -/
noncomputable def guided_attention_loss (B N T : ℕ) (attention_weight : ℕ → ℕ → ℕ → ℝ)
    (dec_lens enc_lens : ℕ → ℕ) (g : ℝ) : ℝ :=
  (∑ b ∈ range B,
      (∑ n ∈ range N, ∑ t ∈ range T,
          attention_guide dec_lens enc_lens g b n t * attention_weight b n t) /
        ((dec_lens b * enc_lens b : ℕ) : ℝ)) / (B : ℝ)

/-! ## `GuidedAttentionLoss` (losses.py lines 27-187) and
`GuidedMultiHeadAttentionLoss` (lines 190-234)

These are `nn.Layer` modules with mutable fields `guided_attn_masks` and
`masks`; we embed them as explicit state records, `forward` returning the
loss value together with the post-call state. -/

/-- The helper `make_non_pad_mask` lives in `paddlespeech/t2s/modules/nets_utils.py`,
which is not part of the sources; its semantics is documented by the
docstring of `_make_masks` in losses.py (lines 157-177): entry `(b, t)` is
true iff `t < lens[b]`. -/
def make_non_pad_mask (lens : List ℕ) (b t : ℕ) : Bool :=
  t < lens.getD b 0

/-- Mutable state of a `GuidedAttentionLoss` module: constructor parameters
plus the two cached mask fields (`None` encoded as `none`). -/
structure GuidedAttentionLossState where
  sigma : ℝ
  alpha : ℝ
  reset_always : Bool
  guided_attn_masks : Option (ℕ → ℕ → ℕ → ℝ)
  masks : Option (ℕ → ℕ → ℕ → Bool)

/-- Mutable state of a `GuidedMultiHeadAttentionLoss` module (the cached
tensors carry the extra broadcast head axis from `unsqueeze(1)`). -/
structure GuidedMultiHeadAttentionLossState where
  sigma : ℝ
  alpha : ℝ
  reset_always : Bool
  guided_attn_masks : Option (ℕ → ℕ → ℕ → ℕ → ℝ)
  masks : Option (ℕ → ℕ → ℕ → ℕ → Bool)

/-- Embeds `GuidedAttentionLoss._make_guided_attention_mask(ilen, olen, sigma)`
at grid position `(o, i)`:
`1 - exp(-((i/ilen - o/olen)^2) / (2*sigma^2))`. -/
noncomputable def make_guided_attention_mask (ilen olen : ℕ) (sigma : ℝ) (o i : ℕ) : ℝ :=
  1 - Real.exp (-(((i : ℝ) / (ilen : ℝ) - (o : ℝ) / (olen : ℝ)) ^ 2) / (2 * sigma ^ 2))

/-- Embeds `GuidedAttentionLoss._make_guided_attention_masks(ilens, olens)`: a
`(B, max_olen, max_ilen)` tensor of zeros whose `[idx, :olen, :ilen]` block
is filled with the per-pair guided attention mask. -/
noncomputable def make_guided_attention_masks (sigma : ℝ) (ilens olens : List ℕ)
    (b o i : ℕ) : ℝ :=
  if o < olens.getD b 0 ∧ i < ilens.getD b 0 then
    make_guided_attention_mask (ilens.getD b 0) (olens.getD b 0) sigma o i
  else 0

/-- Embeds `GuidedAttentionLoss._make_masks(ilens, olens)`: the logical AND of the
output-side and input-side non-padding masks. -/
def make_masks (ilens olens : List ℕ) (b o i : ℕ) : Bool :=
  make_non_pad_mask olens b o && make_non_pad_mask ilens b i

/-- Embeds `paddle.mean(t.masked_select(m))` over a `(B, O, I)` tensor: the sum of
the selected entries divided by their number. -/
noncomputable def maskedMean3 (B O I : ℕ) (v : ℕ → ℕ → ℕ → ℝ) (m : ℕ → ℕ → ℕ → Bool) : ℝ :=
  (∑ b ∈ range B, ∑ o ∈ range O, ∑ i ∈ range I, if m b o i then v b o i else 0) /
    (∑ b ∈ range B, ∑ o ∈ range O, ∑ i ∈ range I, if m b o i then (1 : ℝ) else 0)

/-- Embeds `paddle.mean(t.masked_select(m))` over a `(B, H, O, I)` tensor. -/
noncomputable def maskedMean4 (B H O I : ℕ) (v : ℕ → ℕ → ℕ → ℕ → ℝ)
    (m : ℕ → ℕ → ℕ → ℕ → Bool) : ℝ :=
  (∑ b ∈ range B, ∑ h ∈ range H, ∑ o ∈ range O, ∑ i ∈ range I,
      if m b h o i then v b h o i else 0) /
    (∑ b ∈ range B, ∑ h ∈ range H, ∑ o ∈ range O, ∑ i ∈ range I,
      if m b h o i then (1 : ℝ) else 0)

/-- Largest element of a length list (the `max_olen` / `max_ilen` padding
dimensions of the batch tensors). -/
def listMax (l : List ℕ) : ℕ := l.foldr max 0

/-- Embeds `GuidedAttentionLoss.forward(att_ws, ilens, olens)`: computes (or reuses)
the cached masks, takes the masked mean of `guided_attn_masks * att_ws`,
resets the cached fields iff `reset_always`, and returns `alpha * loss`
together with the post-call state. -/
noncomputable def GuidedAttentionLossForward (st : GuidedAttentionLossState)
    (att_ws : ℕ → ℕ → ℕ → ℝ) (ilens olens : List ℕ) :
    ℝ × GuidedAttentionLossState :=
  let gam := st.guided_attn_masks.getD (make_guided_attention_masks st.sigma ilens olens)
  let m := st.masks.getD (make_masks ilens olens)
  let losses := fun b o i => gam b o i * att_ws b o i
  let loss := maskedMean3 ilens.length (listMax olens) (listMax ilens) losses m
  let st1 : GuidedAttentionLossState :=
    { st with guided_attn_masks := some gam, masks := some m }
  let st2 := if st.reset_always then
    { st1 with guided_attn_masks := none, masks := none } else st1
  (st.alpha * loss, st2)

/-- Embeds `GuidedMultiHeadAttentionLoss.forward(att_ws, ilens, olens)`: as above
but with the masks unsqueezed along the head axis and broadcast against the
`(B, H, T_max_out, T_max_in)` attention weights. -/
noncomputable def GuidedMultiHeadAttentionLossForward
    (st : GuidedMultiHeadAttentionLossState) (H : ℕ)
    (att_ws : ℕ → ℕ → ℕ → ℕ → ℝ) (ilens olens : List ℕ) :
    ℝ × GuidedMultiHeadAttentionLossState :=
  let gam := st.guided_attn_masks.getD
    (fun b _h o i => make_guided_attention_masks st.sigma ilens olens b o i)
  let m := st.masks.getD (fun b _h o i => make_masks ilens olens b o i)
  let losses := fun b h o i => gam b h o i * att_ws b h o i
  let loss := maskedMean4 ilens.length H (listMax olens) (listMax ilens) losses m
  let st1 : GuidedMultiHeadAttentionLossState :=
    { st with guided_attn_masks := some gam, masks := some m }
  let st2 := if st.reset_always then
    { st1 with guided_attn_masks := none, masks := none } else st1
  (st.alpha * loss, st2)

/-! ## Broadcasting tensors, `weighted_mean` (lines 728-746) and
`masked_l1_loss` (lines 749-769)

A tensor is a shape together with an entry function on index tuples.
Element-wise binary operations follow numpy/paddle broadcasting: shapes are
left-padded with `1`s to a common rank, sizes are combined dimension-wise,
and a size-`1` axis is read at index `0`. -/

/-- A (real) tensor: a shape and an entry function on index tuples. -/
structure Ten where
  shape : List ℕ
  data : List ℕ → ℝ

/-- All index tuples of a shape, in row-major order. -/
def idxAll : List ℕ → List (List ℕ)
  | [] => [[]]
  | d :: ds => (List.range d).flatMap fun i => (idxAll ds).map (i :: ·)

/-- Number of elements of a shape (`Tensor.numel()`). -/
def numel (s : List ℕ) : ℕ := s.prod

/-- Left-pad a shape with `1`s to rank `r`. -/
def padShape (r : ℕ) (s : List ℕ) : List ℕ := List.replicate (r - s.length) 1 ++ s

/-- The broadcast shape of two shapes (for broadcast-compatible shapes the
dimension-wise `max` picks the non-`1` size). -/
def broadcastShape (s t : List ℕ) : List ℕ :=
  let r := max s.length t.length
  List.zipWith max (padShape r s) (padShape r t)

/-- Read a tensor at a (possibly higher-rank, broadcast) index: leading
extra axes are dropped and size-`1` axes are read at `0`. -/
def Ten.bget (t : Ten) (idx : List ℕ) : ℝ :=
  t.data (List.zipWith (fun d i => if d = 1 then 0 else i) t.shape
    (idx.drop (idx.length - t.shape.length)))

/-- Element-wise broadcast product (`input * weight`). -/
def tmul (a b : Ten) : Ten :=
  ⟨broadcastShape a.shape b.shape, fun i => a.bget i * b.bget i⟩

/-- Embeds `paddle.sum(t)`: sum of all entries. -/
noncomputable def tsum (t : Ten) : ℝ := ((idxAll t.shape).map t.data).sum

/-- Embeds `weighted_mean(input, weight)` (losses.py lines 728-746):
`sum(input * weight) / (sum(weight) * broadcast_ratio)` with
`broadcast_ratio = input.numel() / weight.numel()`. -/
noncomputable def weighted_mean (input weight : Ten) : ℝ :=
  tsum (tmul input weight) /
    (tsum weight * ((numel input.shape : ℝ) / (numel weight.shape : ℝ)))

/-- Embeds `F.l1_loss(prediction, target, reduction='none')`: the element-wise
absolute error, with broadcasting. -/
def l1_loss_none (prediction target : Ten) : Ten :=
  ⟨broadcastShape prediction.shape target.shape,
    fun i => |prediction.bget i - target.bget i|⟩

/-- Embeds `masked_l1_loss(prediction, target, mask)` (losses.py lines 749-769). -/
noncomputable def masked_l1_loss (prediction target mask : Ten) : ℝ :=
  weighted_mean (l1_loss_none prediction target) mask

/-! ## SSIM (losses.py lines 679-725)

Images are `(B, C, H, W)` tensors embedded as index functions; `F.conv2d`
with `padding = window_size // 2` and `groups = channel` convolves each
channel with the same 2-D window over the zero-padded image. -/

/-- Embeds `gaussian(window_size, sigma)` before normalisation:
`exp(-(x - window_size // 2)^2 / (2 * sigma^2))`. -/
noncomputable def gaussian (window_size : ℕ) (sigma : ℝ) (x : ℕ) : ℝ :=
  Real.exp (-(((x : ℝ) - ((window_size / 2 : ℕ) : ℝ)) ^ 2) / (2 * sigma ^ 2))

/-- Embeds `gaussian(window_size, sigma)` after the `gauss / gauss.sum()`
normalisation. -/
noncomputable def gaussianNorm (window_size : ℕ) (sigma : ℝ) (x : ℕ) : ℝ :=
  gaussian window_size sigma x / ∑ k ∈ range window_size, gaussian window_size sigma k

/-- Embeds `create_window(window_size, channel)`: the outer product of the
normalised 1-D gaussian (`sigma = 1.5`) with itself; the same 2-D window is
expanded to every channel. -/
noncomputable def create_window (window_size : ℕ) (k l : ℕ) : ℝ :=
  gaussianNorm window_size 1.5 k * gaussianNorm window_size 1.5 l

/-- Zero-padded read of an `H × W` image plane at integer coordinates. -/
def pad2 (H W : ℕ) (f : ℕ → ℕ → ℝ) (a b : ℤ) : ℝ :=
  if 0 ≤ a ∧ a < (H : ℤ) ∧ 0 ≤ b ∧ b < (W : ℤ) then f a.toNat b.toNat else 0

/-- Embeds `F.conv2d` (cross-correlation, stride 1) of one image plane with a
`window_size × window_size` kernel and `padding = window_size // 2`. -/
noncomputable def conv2d (window_size H W : ℕ) (win : ℕ → ℕ → ℝ) (f : ℕ → ℕ → ℝ)
    (i j : ℕ) : ℝ :=
  ∑ k ∈ range window_size, ∑ l ∈ range window_size,
    win k l * pad2 H W f ((i : ℤ) + (k : ℤ) - ((window_size / 2 : ℕ) : ℤ))
      ((j : ℤ) + (l : ℤ) - ((window_size / 2 : ℕ) : ℤ))

/-- Spatial output size of `conv2d` with `padding = window_size // 2`:
`d + 2 * (window_size // 2) - window_size + 1`. -/
def convOut (window_size d : ℕ) : ℕ := d + 2 * (window_size / 2) + 1 - window_size

/-- The SSIM map of `_ssim` at position `(b, c, i, j)`:
`((2*mu1_mu2 + C1) * (2*sigma12 + C2)) /
 ((mu1_sq + mu2_sq + C1) * (sigma1_sq + sigma2_sq + C2))`
with `C1 = 0.01^2`, `C2 = 0.03^2`. -/
noncomputable def ssim_map (window_size H W : ℕ) (img1 img2 : ℕ → ℕ → ℕ → ℕ → ℝ)
    (b c i j : ℕ) : ℝ :=
  let win := create_window window_size
  let mu1 := conv2d window_size H W win (img1 b c) i j
  let mu2 := conv2d window_size H W win (img2 b c) i j
  let mu1_sq := mu1 ^ 2
  let mu2_sq := mu2 ^ 2
  let mu1_mu2 := mu1 * mu2
  let sigma1_sq :=
    conv2d window_size H W win (fun x y => img1 b c x y * img1 b c x y) i j - mu1_sq
  let sigma2_sq :=
    conv2d window_size H W win (fun x y => img2 b c x y * img2 b c x y) i j - mu2_sq
  let sigma12 :=
    conv2d window_size H W win (fun x y => img1 b c x y * img2 b c x y) i j - mu1_mu2
  let C1 := (0.01 : ℝ) ^ 2
  let C2 := (0.03 : ℝ) ^ 2
  ((2 * mu1_mu2 + C1) * (2 * sigma12 + C2)) /
    ((mu1_sq + mu2_sq + C1) * (sigma1_sq + sigma2_sq + C2))

/-- Embeds `t.mean()` over range `n`. -/
noncomputable def meanR (n : ℕ) (f : ℕ → ℝ) : ℝ := (∑ k ∈ range n, f k) / (n : ℝ)

/-- Embeds `t.mean()` over a 4-D tensor: the sum of all entries divided by their
number. -/
noncomputable def meanAll4 (B C H W : ℕ) (f : ℕ → ℕ → ℕ → ℕ → ℝ) : ℝ :=
  (∑ b ∈ range B, ∑ c ∈ range C, ∑ i ∈ range H, ∑ j ∈ range W, f b c i j) /
    ((B * C * H * W : ℕ) : ℝ)

/-- Embeds `ssim(img1, img2, window_size, size_average)` (losses.py lines 695-725):
with `size_average=True` the scalar `ssim_map.mean()` (`Sum.inl`), otherwise
the per-batch-example tensor `ssim_map.mean(1).mean(1).mean(1)` of shape
`(B,)` (`Sum.inr`). -/
noncomputable def ssim (B C H W window_size : ℕ) (img1 img2 : ℕ → ℕ → ℕ → ℕ → ℝ)
    (size_average : Bool) : ℝ ⊕ (ℕ → ℝ) :=
  if size_average then
    Sum.inl (meanAll4 B C (convOut window_size H) (convOut window_size W)
      (ssim_map window_size H W img1 img2))
  else
    Sum.inr (fun b =>
      meanR (convOut window_size W) fun j =>
        meanR (convOut window_size H) fun i =>
          meanR C fun c => ssim_map window_size H W img1 img2 b c i j)

/-! ## STFT losses (losses.py lines 368-567)

`paddle.signal.stft` is an external framework primitive; we abstract it as
a parameter `R` giving, for a configuration and a 1-D signal, the complex
STFT value (real and imaginary part) at frequency bin `f` and frame `t`.
The number of frames of the analysis is likewise external and is abstracted
as a parameter `Fr` of the configuration. -/

/-- The constructor parameters of a `STFTLoss` module. -/
structure STFTCfg where
  fft_size : ℕ
  shift_size : ℕ
  win_length : ℕ
  window : String

/-- Abstract complex STFT primitive (`paddle.signal.stft` with the window
from `scipy.signal.get_window`): configuration, 1-D signal, frequency bin,
frame. -/
def RawStft : Type := STFTCfg → (ℕ → ℝ) → ℕ → ℕ → ℝ × ℝ

/-- Embeds `stft(x, ...)` (losses.py lines 368-415): magnitude spectrogram
`sqrt(clip(real^2 + imag^2, min=1e-7))`, transposed to
`(B, #frames, #freq_bins)` — entry `(b, t, f)`. -/
noncomputable def stft (R : RawStft) (cfg : STFTCfg) (x : ℕ → ℕ → ℝ) (b t f : ℕ) : ℝ :=
  Real.sqrt (max ((R cfg (x b) f t).1 ^ 2 + (R cfg (x b) f t).2 ^ 2) (1e-7 : ℝ))

/-- Frobenius norm of a `(B, #frames, #freq_bins)` tensor. -/
noncomputable def froNorm (B F K : ℕ) (m : ℕ → ℕ → ℕ → ℝ) : ℝ :=
  Real.sqrt (∑ b ∈ range B, ∑ t ∈ range F, ∑ f ∈ range K, (m b t f) ^ 2)

/-- Embeds `SpectralConvergenceLoss.forward(x_mag, y_mag)` (lines 425-440):
`norm(y_mag - x_mag, 'fro') / clip(norm(y_mag, 'fro'), min=1e-10)`. -/
noncomputable def spectral_convergence_loss (B F K : ℕ) (x_mag y_mag : ℕ → ℕ → ℕ → ℝ) : ℝ :=
  froNorm B F K (fun b t f => y_mag b t f - x_mag b t f) /
    max (froNorm B F K y_mag) (1e-10 : ℝ)

/-- Embeds `LogSTFTMagnitudeLoss.forward(x_mag, y_mag)` (lines 443-466) with the
default `epsilon = 1e-7`: the mean absolute difference of
`log(clip(·, min=epsilon))`. -/
noncomputable def log_stft_magnitude_loss (B F K : ℕ) (x_mag y_mag : ℕ → ℕ → ℕ → ℝ) : ℝ :=
  (∑ b ∈ range B, ∑ t ∈ range F, ∑ f ∈ range K,
      |Real.log (max (y_mag b t f) (1e-7 : ℝ)) - Real.log (max (x_mag b t f) (1e-7 : ℝ))|) /
    ((B * F * K : ℕ) : ℝ)

/-- Embeds `STFTLoss.forward(x, y)` (lines 469-508): the spectral-convergence and
log-STFT-magnitude losses of the two magnitude spectrograms. `Fr cfg` is
the number of analysis frames and `fft_size // 2 + 1` the number of
frequency bins. -/
noncomputable def STFTLossForward (R : RawStft) (Fr : STFTCfg → ℕ) (B : ℕ)
    (cfg : STFTCfg) (x y : ℕ → ℕ → ℝ) : ℝ × ℝ :=
  let x_mag := stft R cfg x
  let y_mag := stft R cfg y
  (spectral_convergence_loss B (Fr cfg) (cfg.fft_size / 2 + 1) x_mag y_mag,
   log_stft_magnitude_loss B (Fr cfg) (cfg.fft_size / 2 + 1) x_mag y_mag)

/-- Embeds `MultiResolutionSTFTLoss.forward(x, y)` (lines 511-567) on 2-D input:
accumulate the per-resolution losses and divide by the number of
resolutions. -/
noncomputable def MultiResolutionSTFTLossForward2 (R : RawStft) (Fr : STFTCfg → ℕ)
    (B : ℕ) (cfgs : List STFTCfg) (x y : ℕ → ℕ → ℝ) : ℝ × ℝ :=
  let s := cfgs.foldl (fun acc cfg =>
    let p := STFTLossForward R Fr B cfg x y
    (acc.1 + p.1, acc.2 + p.2)) ((0 : ℝ), (0 : ℝ))
  (s.1 / (cfgs.length : ℝ), s.2 / (cfgs.length : ℝ))

/-- The `(B, C, T) -> (B*C, T)` reshape performed on 3-D inputs (row-major:
row `b*C + c` of the result is channel `c` of example `b`). -/
def reshape_3d (C : ℕ) (x : ℕ → ℕ → ℕ → ℝ) : ℕ → ℕ → ℝ :=
  fun bc t => x (bc / C) (bc % C) t

/-- Embeds `MultiResolutionSTFTLoss.forward(x, y)` on 3-D `(B, C, T)` input:
reshape both signals to `(B*C, T)` first. -/
noncomputable def MultiResolutionSTFTLossForward3 (R : RawStft) (Fr : STFTCfg → ℕ)
    (B C : ℕ) (cfgs : List STFTCfg) (x y : ℕ → ℕ → ℕ → ℝ) : ℝ × ℝ :=
  MultiResolutionSTFTLossForward2 R Fr (B * C) cfgs (reshape_3d C x) (reshape_3d C y)

/-! ## `GeneratorAdversarialLoss` (losses.py lines 570-615)

`forward(outputs)` accepts either a tensor or a list of discriminator
outputs, each of which may itself be a list (feature maps plus final
output, in which case the last element is used).  We embed tensors as
`List ℝ` and the two-level input structure explicitly; a Python runtime
error (`IndexError` on `[-1]` of an empty list, `NameError` on the
loop variable `i` after an empty loop) is `none`. -/

/-- One element of the `outputs` list: a discriminator output tensor, or a
list of feature maps whose last element is the output. -/
inductive DiscOutput where
  | tensor (x : List ℝ)
  | feats (xs : List (List ℝ))

/-- Embeds `F.mse_loss(x, paddle.ones_like(x))` (mean reduction). -/
noncomputable def mse_loss_ones (x : List ℝ) : ℝ :=
  ((x.map fun v => (v - 1) ^ 2).sum) / (x.length : ℝ)

/-- Embeds `-x.mean()` (the hinge criterion). -/
noncomputable def hinge_loss_gen (x : List ℝ) : ℝ :=
  -(x.sum / (x.length : ℝ))

/-- The `loss_type` constructor flag (`"mse"` or `"hinge"`). -/
inductive GenLossType where
  | mse
  | hinge

/-- The criterion selected by `__init__` from `loss_type`. -/
noncomputable def genCriterion : GenLossType → List ℝ → ℝ
  | .mse => mse_loss_ones
  | .hinge => hinge_loss_gen

/-- The argument of `GeneratorAdversarialLoss.forward`: a tensor or a list
of discriminator outputs. -/
inductive GenAdvOutputs where
  | tensor (x : List ℝ)
  | list (outputs : List DiscOutput)

/-- The tensor a list entry contributes: itself, or the last element of the
feature-map list. -/
def discLastTensor : DiscOutput → List ℝ
  | .tensor x => x
  | .feats xs => xs.getLastD []

/-- The `adv_loss` accumulation loop of `forward` over the outputs list:
each iteration adds `criterion(outputs_)`, first replacing `outputs_` by
its last element when it is itself a list (`none` when that list is empty,
modelling the `IndexError`). -/
noncomputable def genAdvSum (lt : GenLossType) : List DiscOutput → Option ℝ
  | [] => some 0
  | o :: os => do
      let v ← match o with
        | DiscOutput.tensor x => some (genCriterion lt x)
        | DiscOutput.feats xs => xs.getLast?.map (genCriterion lt)
      let s ← genAdvSum lt os
      pure (v + s)

/-- Embeds `GeneratorAdversarialLoss.forward(outputs)`: sum (and, when
`average_by_discriminators`, divide by the loop count `i + 1`) of the
criterion over the outputs. `none` models the Python runtime errors — in
particular, on an empty list with averaging enabled the loop variable `i`
used as divisor is never bound (`NameError`). -/
noncomputable def GeneratorAdversarialLossForward (average_by_discriminators : Bool)
    (lt : GenLossType) : GenAdvOutputs → Option ℝ
  | .tensor x => some (genCriterion lt x)
  | .list outputs => do
      let s ← genAdvSum lt outputs
      if average_by_discriminators then
        if outputs.length = 0 then none
        else some (s / (outputs.length : ℝ))
      else some s

/-! ## `MelSpectrogram` (losses.py lines 772-870)

`scipy.signal.windows` (the window-name table probed by `hasattr`) and
`librosa.filters.mel` (the mel filterbank) are external libraries and are
abstracted as the parameters `hasWindow` and `melmat`; `paddle.signal.stft`
is abstracted as the parameter `Rm` of `forward`. -/

/-- The fields a successfully constructed `MelSpectrogram` module holds. -/
structure MelSpectrogramCfg where
  fft_size : ℕ
  win_length : ℕ
  hop_size : ℕ
  center : Bool
  normalized : Bool
  onesided : Bool
  window : Option String
  eps : ℝ
  melmat : ℕ → ℕ → ℝ
  log_base : Option ℝ
  log : ℝ → ℝ

/-- Embeds `MelSpectrogram.__init__`: `win_length` defaults to `fft_size`; raises
`ValueError` (`none`) when `window` is a non-`None` name missing from
`scipy.signal.windows`, or when `log_base` is none of `None`, `2.0`,
`10.0`; otherwise selects `paddle.log` / `paddle.log2` / `paddle.log10`. -/
noncomputable def MelSpectrogramInit (hasWindow : String → Bool) (melmat : ℕ → ℕ → ℝ)
    (fft_size hop_size : ℕ) (win_length : Option ℕ) (window : Option String)
    (center normalized onesided : Bool) (eps : ℝ) (log_base : Option ℝ) :
    Option MelSpectrogramCfg :=
  let wl := win_length.getD fft_size
  if (window.map fun w => !hasWindow w).getD false then none
  else
    match log_base with
    | none => some ⟨fft_size, wl, hop_size, center, normalized, onesided, window,
        eps, melmat, none, Real.log⟩
    | some b =>
      if b = 2 then some ⟨fft_size, wl, hop_size, center, normalized, onesided, window,
        eps, melmat, some b, Real.logb 2⟩
      else if b = 10 then some ⟨fft_size, wl, hop_size, center, normalized, onesided,
        window, eps, melmat, some b, Real.logb 10⟩
      else none

/-- Embeds `MelSpectrogram.forward(x)` at entry `(b, m, t)` of the returned
`(B, #mels, #frames)` tensor: the selected logarithm of the clipped mel
spectrogram `clip(amp @ melmat, min=eps)`, where
`amp = sqrt(clip(real^2 + imag^2, min=eps))` and `Rm` is the abstract
`paddle.signal.stft` primitive. -/
noncomputable def MelSpectrogramForward
    (Rm : MelSpectrogramCfg → (ℕ → ℝ) → ℕ → ℕ → ℝ × ℝ)
    (cfg : MelSpectrogramCfg) (KFreq : ℕ) (x : ℕ → ℕ → ℝ) (b m t : ℕ) : ℝ :=
  let amp := fun f =>
    Real.sqrt (max ((Rm cfg (x b) f t).1 ^ 2 + (Rm cfg (x b) f t).2 ^ 2) cfg.eps)
  cfg.log (max (∑ f ∈ range KFreq, amp f * cfg.melmat f m) cfg.eps)

end Losses

/-! ## Claim theorems -/

namespace Losses

/-- Claim C1: for positive lengths and `g > 0`, inside the non-padded region
(`n < dec_lens[b]` and `t < enc_lens[b]`) the entry of `attention_guide`
equals `1 - exp(-((n/dec_lens[b] - t/enc_lens[b])^2) / (2*g^2))`, and it is
`0` at every position outside that region. -/
theorem attention_guide_spec (dec_lens enc_lens : ℕ → ℕ) (g : ℝ) (B N T b n t : ℕ)
    (hb : b < B) (hn : n < N) (ht : t < T)
    (hdec : 0 < dec_lens b) (henc : 0 < enc_lens b) (hg : 0 < g) :
    (n < dec_lens b → t < enc_lens b →
      attention_guide dec_lens enc_lens g b n t =
        1 - Real.exp (-(((n : ℝ) / (dec_lens b : ℝ) - (t : ℝ) / (enc_lens b : ℝ)) ^ 2) /
          (2 * g ^ 2))) ∧
    (¬(n < dec_lens b ∧ t < enc_lens b) →
      attention_guide dec_lens enc_lens g b n t = 0) := by
  constructor
  · intro h1 h2
    simp [attention_guide, sequence_mask, h1, h2]
  · intro h
    rcases Decidable.not_and_iff_or_not.mp h with h' | h' <;>
      simp [attention_guide, sequence_mask, h']

/-- Witness for C1 at `B = 1`, `dec_lens = [2]`, `enc_lens = [3]`, `N = 2`,
`T = 3`, `g = 1`, position `(0, 1, 2)` (inside the non-padded region). -/
theorem attention_guide_spec_witness :
    attention_guide (fun _ => 2) (fun _ => 3) 1 0 1 2 =
      1 - Real.exp (-(((1 : ℝ) / 2 - (2 : ℝ) / 3) ^ 2) / (2 * (1 : ℝ) ^ 2)) := by
  have h := (attention_guide_spec (fun _ => 2) (fun _ => 3) 1 1 2 3 0 1 2
    (by norm_num) (by norm_num) (by norm_num) (by norm_num) (by norm_num) (by norm_num)).1
    (by norm_num) (by norm_num)
  simpa using h

lemma zipWith_max_self : ∀ s : List ℕ, List.zipWith max s s = s
  | [] => rfl
  | d :: ds => by simp [List.zipWith, zipWith_max_self ds]

lemma broadcastShape_self (s : List ℕ) : broadcastShape s s = s := by
  simp [broadcastShape, padShape, zipWith_max_self]

lemma idxAll_eq_nil_of_numel_zero : ∀ s : List ℕ, numel s = 0 → idxAll s = []
  | [], h => by simp [numel] at h
  | d :: ds, h => by
    have h' : d * numel ds = 0 := by
      simp only [numel] at h ⊢; rwa [List.prod_cons] at h
    rcases Nat.mul_eq_zero.mp h' with h0 | h0
    · simp [idxAll, h0]
    · simp [idxAll, idxAll_eq_nil_of_numel_zero ds h0]

lemma tsum_eq_zero_of_numel_zero (t : Ten) (h : numel t.shape = 0) : tsum t = 0 := by
  simp [tsum, idxAll_eq_nil_of_numel_zero t.shape h]

/-- Claim C2, counterexample: with `reset_always = False`, after a call to
`GuidedAttentionLoss.forward` the `masks` field is *not* `None` — the module
retains the computed masks between calls, so the claim fails for that value
of the flag. Concrete input: fresh state with `sigma = 0.4`, `alpha = 1.0`,
`reset_always = False`, `att_ws = 0`, `ilens = olens = [1]`. -/
theorem guidedAttentionLoss_forward_not_always_reset :
    (GuidedAttentionLossForward
        ⟨0.4, 1.0, false, none, none⟩ (fun _ _ _ => 0) [1] [1]).2.masks ≠ none := by
  simp [GuidedAttentionLossForward]

/-- Claim C2, amended: when `reset_always` is true, after every call to
`GuidedAttentionLoss.forward` (and `GuidedMultiHeadAttentionLoss.forward`)
the fields `guided_attn_masks` and `masks` are `None` again, and — the
cached fields being `None` at entry, as they are in every reachable state of
such a module — the returned loss value is the closed-form function
`alpha * maskedMean(...)` of the call arguments and the constructor
parameters alone. -/
theorem guidedAttentionLoss_forward_reset_always_spec
    (st : GuidedAttentionLossState) (st4 : GuidedMultiHeadAttentionLossState)
    (att_ws : ℕ → ℕ → ℕ → ℝ) (att_ws4 : ℕ → ℕ → ℕ → ℕ → ℝ) (H : ℕ)
    (ilens olens : List ℕ)
    (hr : st.reset_always = true) (hg : st.guided_attn_masks = none)
    (hm : st.masks = none)
    (hr4 : st4.reset_always = true) (hg4 : st4.guided_attn_masks = none)
    (hm4 : st4.masks = none) :
    (GuidedAttentionLossForward st att_ws ilens olens).2.guided_attn_masks = none ∧
    (GuidedAttentionLossForward st att_ws ilens olens).2.masks = none ∧
    (GuidedAttentionLossForward st att_ws ilens olens).1 =
      st.alpha * maskedMean3 ilens.length (listMax olens) (listMax ilens)
        (fun b o i => make_guided_attention_masks st.sigma ilens olens b o i * att_ws b o i)
        (make_masks ilens olens) ∧
    (GuidedMultiHeadAttentionLossForward st4 H att_ws4 ilens olens).2.guided_attn_masks
      = none ∧
    (GuidedMultiHeadAttentionLossForward st4 H att_ws4 ilens olens).2.masks = none ∧
    (GuidedMultiHeadAttentionLossForward st4 H att_ws4 ilens olens).1 =
      st4.alpha * maskedMean4 ilens.length H (listMax olens) (listMax ilens)
        (fun b h o i =>
          make_guided_attention_masks st4.sigma ilens olens b o i * att_ws4 b h o i)
        (fun b _h o i => make_masks ilens olens b o i) := by
  refine ⟨?_, ?_, ?_, ?_, ?_, ?_⟩ <;>
    simp [GuidedAttentionLossForward, GuidedMultiHeadAttentionLossForward,
      hr, hg, hm, hr4, hg4, hm4]

/-- Witness for the amended C2 at a concrete fresh state with
`reset_always = true` on both modules. -/
theorem guidedAttentionLoss_forward_reset_always_spec_witness :
    (GuidedAttentionLossForward
        ⟨0.4, 1.0, true, none, none⟩ (fun _ _ _ => 0) [1] [1]).2.masks = none := by
  have h := guidedAttentionLoss_forward_reset_always_spec
    ⟨0.4, 1.0, true, none, none⟩ ⟨0.4, 1.0, true, none, none⟩
    (fun _ _ _ => 0) (fun _ _ _ _ => 0) 1 [1] [1]
    rfl rfl rfl rfl rfl rfl
  exact h.2.1

lemma gaussianNorm_nonneg (ws : ℕ) (σ : ℝ) (x : ℕ) : 0 ≤ gaussianNorm ws σ x :=
  div_nonneg (Real.exp_pos _).le (Finset.sum_nonneg fun _ _ => (Real.exp_pos _).le)

lemma gaussianNorm_sum_le_one (ws : ℕ) (σ : ℝ) :
    ∑ x ∈ range ws, gaussianNorm ws σ x ≤ 1 := by
  unfold gaussianNorm
  rw [← Finset.sum_div]
  rcases eq_or_ne (∑ k ∈ range ws, gaussian ws σ k) 0 with h | h
  · rw [h]; norm_num
  · rw [div_self h]

lemma create_window_nonneg (ws k l : ℕ) : 0 ≤ create_window ws k l :=
  mul_nonneg (gaussianNorm_nonneg ws 1.5 k) (gaussianNorm_nonneg ws 1.5 l)

lemma create_window_sum_le_one (ws : ℕ) :
    ∑ k ∈ range ws, ∑ l ∈ range ws, create_window ws k l ≤ 1 := by
  have hrw : ∑ k ∈ range ws, ∑ l ∈ range ws, create_window ws k l =
      (∑ k ∈ range ws, gaussianNorm ws 1.5 k) * (∑ l ∈ range ws, gaussianNorm ws 1.5 l) := by
    rw [Finset.sum_mul_sum]
    rfl
  rw [hrw]
  have h0 : 0 ≤ ∑ l ∈ range ws, gaussianNorm ws 1.5 l :=
    Finset.sum_nonneg fun x _ => gaussianNorm_nonneg ws 1.5 x
  exact mul_le_one₀ (gaussianNorm_sum_le_one ws 1.5) h0 (gaussianNorm_sum_le_one ws 1.5)

lemma pad2_mul_self (H W : ℕ) (f : ℕ → ℕ → ℝ) (a b : ℤ) :
    pad2 H W (fun x y => f x y * f x y) a b = pad2 H W f a b * pad2 H W f a b := by
  unfold pad2
  split <;> simp

/-- Weighted Cauchy–Schwarz for the gaussian window: the conv of the squared
plane dominates the square of the conv (so `sigma1_sq >= 0`). -/
lemma conv2d_variance_nonneg (ws H W : ℕ) (f : ℕ → ℕ → ℝ) (i j : ℕ) :
    (conv2d ws H W (create_window ws) f i j) ^ 2 ≤
      conv2d ws H W (create_window ws) (fun x y => f x y * f x y) i j := by
  classical
  set s := (range ws) ×ˢ (range ws) with hs
  set w : ℕ × ℕ → ℝ := fun p => create_window ws p.1 p.2 with hw
  set v : ℕ × ℕ → ℝ := fun p =>
    pad2 H W f ((i : ℤ) + (p.1 : ℤ) - ((ws / 2 : ℕ) : ℤ))
      ((j : ℤ) + (p.2 : ℤ) - ((ws / 2 : ℕ) : ℤ)) with hv
  have hconv1 : conv2d ws H W (create_window ws) f i j = ∑ p ∈ s, w p * v p := by
    rw [conv2d, ← Finset.sum_product']
  have hconv2 : conv2d ws H W (create_window ws) (fun x y => f x y * f x y) i j =
      ∑ p ∈ s, w p * (v p * v p) := by
    rw [conv2d, ← Finset.sum_product']
    exact Finset.sum_congr rfl fun p _ => by rw [pad2_mul_self]
  have hcs : (∑ p ∈ s, w p * v p) ^ 2 ≤
      (∑ p ∈ s, w p) * ∑ p ∈ s, w p * (v p * v p) := by
    refine Finset.sum_sq_le_sum_mul_sum_of_sq_eq_mul s
      (fun p _ => create_window_nonneg ws p.1 p.2)
      (fun p _ => mul_nonneg (create_window_nonneg ws p.1 p.2) (mul_self_nonneg _))
      (fun p _ => by ring)
  have hwsum : ∑ p ∈ s, w p ≤ 1 := by
    rw [hs, Finset.sum_product']
    exact create_window_sum_le_one ws
  have hg0 : 0 ≤ ∑ p ∈ s, w p * (v p * v p) :=
    Finset.sum_nonneg fun p _ =>
      mul_nonneg (create_window_nonneg ws p.1 p.2) (mul_self_nonneg _)
  calc (conv2d ws H W (create_window ws) f i j) ^ 2
      = (∑ p ∈ s, w p * v p) ^ 2 := by rw [hconv1]
    _ ≤ (∑ p ∈ s, w p) * ∑ p ∈ s, w p * (v p * v p) := hcs
    _ ≤ ∑ p ∈ s, w p * (v p * v p) := mul_le_of_le_one_left hg0 hwsum
    _ = conv2d ws H W (create_window ws) (fun x y => f x y * f x y) i j := hconv2.symm

/-- In exact arithmetic the SSIM map of an image with itself is identically
`1`: numerator and denominator coincide and the denominator is positive. -/
lemma ssim_map_self (ws H W : ℕ) (img : ℕ → ℕ → ℕ → ℕ → ℝ) (b c i j : ℕ) :
    ssim_map ws H W img img b c i j = 1 := by
  simp only [ssim_map]
  set μ := conv2d ws H W (create_window ws) (img b c) i j with hμ
  set K := conv2d ws H W (create_window ws) (fun x y => img b c x y * img b c x y) i j
    with hK
  have hvar : μ ^ 2 ≤ K := conv2d_variance_nonneg ws H W (img b c) i j
  have hc2 : (0 : ℝ) < (0.03 : ℝ) ^ 2 := by norm_num
  have h1 : (0 : ℝ) < μ ^ 2 + μ ^ 2 + (0.01 : ℝ) ^ 2 := by positivity
  have h2 : (0 : ℝ) < (K - μ ^ 2) + (K - μ ^ 2) + (0.03 : ℝ) ^ 2 := by nlinarith
  rw [div_eq_one_iff_eq (by nlinarith : ((μ ^ 2 + μ ^ 2 + (0.01 : ℝ) ^ 2) *
    ((K - μ ^ 2) + (K - μ ^ 2) + (0.03 : ℝ) ^ 2)) ≠ 0)]
  ring

/-- Claim C6: `masked_l1_loss(prediction, target, mask)` is `weighted_mean`
applied to the element-wise absolute error with weight `mask`;
`weighted_mean` computes
`sum(input * weight) / (sum(weight) * (numel(input) / numel(weight)))`;
and when the mask has the same shape as the error this reduces to the
mask-weighted mean `sum(error * mask) / sum(mask)` of the absolute error. -/
theorem masked_l1_loss_spec (prediction target mask : Ten) :
    masked_l1_loss prediction target mask =
      weighted_mean (l1_loss_none prediction target) mask ∧
    (∀ input weight : Ten, weighted_mean input weight =
      tsum (tmul input weight) /
        (tsum weight * ((numel input.shape : ℝ) / (numel weight.shape : ℝ)))) ∧
    ((l1_loss_none prediction target).shape = mask.shape →
      masked_l1_loss prediction target mask =
        tsum (tmul (l1_loss_none prediction target) mask) / tsum mask) := by
  refine ⟨rfl, fun _ _ => rfl, fun hsh => ?_⟩
  by_cases h0 : numel mask.shape = 0
  · have hnum : numel (l1_loss_none prediction target).shape = 0 := by rw [hsh]; exact h0
    have htm : (tmul (l1_loss_none prediction target) mask).shape = mask.shape := by
      show broadcastShape (l1_loss_none prediction target).shape mask.shape = mask.shape
      rw [hsh, broadcastShape_self]
    have hz : tsum (tmul (l1_loss_none prediction target) mask) = 0 :=
      tsum_eq_zero_of_numel_zero _ (by rw [htm]; exact h0)
    simp [masked_l1_loss, weighted_mean, hz]
  · have hne : ((numel mask.shape : ℕ) : ℝ) ≠ 0 := Nat.cast_ne_zero.mpr h0
    have hratio : ((numel (l1_loss_none prediction target).shape : ℝ) /
        (numel mask.shape : ℝ)) = 1 := by rw [hsh]; exact div_self hne
    simp [masked_l1_loss, weighted_mean, hratio]

lemma convOut_pos (ws d : ℕ) (hd : 0 < d) : 0 < convOut ws d := by
  unfold convOut; omega

/-- Claim C4: for every image and window size (positive dimensions),
`ssim(img, img, window_size, size_average=True)` equals `1`. -/
theorem ssim_self_eq_one (B C H W window_size : ℕ) (img : ℕ → ℕ → ℕ → ℕ → ℝ)
    (hB : 0 < B) (hC : 0 < C) (hH : 0 < H) (hW : 0 < W) :
    ssim B C H W window_size img img true = Sum.inl 1 := by
  have hH' : 0 < convOut window_size H := convOut_pos window_size H hH
  have hW' : 0 < convOut window_size W := convOut_pos window_size W hW
  simp only [ssim, if_pos]
  congr 1
  unfold meanAll4
  have hsum : ∑ b ∈ range B, ∑ c ∈ range C, ∑ i ∈ range (convOut window_size H),
      ∑ j ∈ range (convOut window_size W),
        ssim_map window_size H W img img b c i j =
      ((B * C * convOut window_size H * convOut window_size W : ℕ) : ℝ) := by
    simp [ssim_map_self, mul_assoc]
  rw [hsum]
  exact div_self (by positivity)

/-- Witness for C4 at `B = C = H = W = 1`, `window_size = 1`, the zero
image. -/
theorem ssim_self_eq_one_witness :
    ssim 1 1 1 1 1 (fun _ _ _ _ => 0) (fun _ _ _ _ => 0) true = Sum.inl 1 :=
  ssim_self_eq_one 1 1 1 1 1 (fun _ _ _ _ => 0)
    (by norm_num) (by norm_num) (by norm_num) (by norm_num)

/-- Claim C10: with `size_average=True`, `ssim` returns the single scalar
`ssim_map.mean()`; with `size_average=False` it returns a `(B,)`-shaped
family whose entry `b` is the SSIM map averaged over the channel axis and
both spatial axes; and `weighted_mean` returns the single scalar
`sum(input*weight) / (sum(weight) * numel-ratio)`. -/
theorem ssim_output_spec (B C H W window_size : ℕ) (img1 img2 : ℕ → ℕ → ℕ → ℕ → ℝ) :
    ssim B C H W window_size img1 img2 true =
      Sum.inl (meanAll4 B C (convOut window_size H) (convOut window_size W)
        (ssim_map window_size H W img1 img2)) ∧
    ssim B C H W window_size img1 img2 false =
      Sum.inr (fun b =>
        (∑ c ∈ range C, ∑ i ∈ range (convOut window_size H),
            ∑ j ∈ range (convOut window_size W),
              ssim_map window_size H W img1 img2 b c i j) /
          ((C * convOut window_size H * convOut window_size W : ℕ) : ℝ)) ∧
    (∀ input weight : Ten, weighted_mean input weight =
      tsum (tmul input weight) /
        (tsum weight * ((numel input.shape : ℝ) / (numel weight.shape : ℝ)))) := by
  refine ⟨rfl, ?_, fun _ _ => rfl⟩
  simp only [ssim, Bool.false_eq_true, if_false]
  congr 1
  funext b
  simp only [meanR]
  simp only [← Finset.sum_div, div_div]
  have hnum : ∑ j ∈ range (convOut window_size W), ∑ i ∈ range (convOut window_size H),
      ∑ c ∈ range C, ssim_map window_size H W img1 img2 b c i j
      = ∑ c ∈ range C, ∑ i ∈ range (convOut window_size H),
          ∑ j ∈ range (convOut window_size W),
            ssim_map window_size H W img1 img2 b c i j :=
    calc ∑ j ∈ range (convOut window_size W), ∑ i ∈ range (convOut window_size H),
        ∑ c ∈ range C, ssim_map window_size H W img1 img2 b c i j
        = ∑ i ∈ range (convOut window_size H), ∑ j ∈ range (convOut window_size W),
            ∑ c ∈ range C, ssim_map window_size H W img1 img2 b c i j :=
          Finset.sum_comm ..
      _ = ∑ i ∈ range (convOut window_size H), ∑ c ∈ range C,
            ∑ j ∈ range (convOut window_size W),
              ssim_map window_size H W img1 img2 b c i j :=
          Finset.sum_congr rfl fun _ _ => Finset.sum_comm ..
      _ = ∑ c ∈ range C, ∑ i ∈ range (convOut window_size H),
            ∑ j ∈ range (convOut window_size W),
              ssim_map window_size H W img1 img2 b c i j :=
          Finset.sum_comm ..
  rw [hnum]
  congr 1
  push_cast
  ring

/-- Witness for C6 on same-shape `(2,)` tensors. -/
theorem masked_l1_loss_spec_witness :
    masked_l1_loss ⟨[2], fun i => (i.headD 0 : ℝ)⟩ ⟨[2], fun _ => 0⟩ ⟨[2], fun _ => 1⟩ =
      tsum (tmul (l1_loss_none ⟨[2], fun i => (i.headD 0 : ℝ)⟩ ⟨[2], fun _ => 0⟩)
          ⟨[2], fun _ => 1⟩) /
        tsum ⟨[2], fun _ => 1⟩ :=
  (masked_l1_loss_spec ⟨[2], fun i => (i.headD 0 : ℝ)⟩ ⟨[2], fun _ => 0⟩
    ⟨[2], fun _ => 1⟩).2.2 rfl

lemma foldl_add_pair (g1 g2 : STFTCfg → ℝ) :
    ∀ (l : List STFTCfg) (a : ℝ × ℝ),
      l.foldl (fun acc cfg => (acc.1 + g1 cfg, acc.2 + g2 cfg)) a =
        (a.1 + (l.map g1).sum, a.2 + (l.map g2).sum)
  | [], a => by simp
  | c :: cs, a => by
    rw [List.foldl_cons, foldl_add_pair g1 g2 cs]
    simp [add_assoc]

/-- Claim C3: `MultiResolutionSTFTLoss.forward` on a 3-D `(B, C, T)` input
first reshapes both signals to `(B*C, T)` and then returns the arithmetic
means, over the `n` configured resolutions, of the per-resolution
spectral-convergence and log-STFT-magnitude losses computed by
`STFTLoss(fft_sizes[k], hop_sizes[k], win_lengths[k], window)`. -/
theorem multiResolutionSTFTLoss_forward_spec (R : RawStft) (Fr : STFTCfg → ℕ)
    (B C : ℕ) (cfgs : List STFTCfg) (x y : ℕ → ℕ → ℕ → ℝ)
    (hn : 1 ≤ cfgs.length) :
    MultiResolutionSTFTLossForward3 R Fr B C cfgs x y =
      ((cfgs.map fun cfg =>
          (STFTLossForward R Fr (B * C) cfg (reshape_3d C x) (reshape_3d C y)).1).sum /
        (cfgs.length : ℝ),
       (cfgs.map fun cfg =>
          (STFTLossForward R Fr (B * C) cfg (reshape_3d C x) (reshape_3d C y)).2).sum /
        (cfgs.length : ℝ)) ∧
    ∀ cfg : STFTCfg,
      STFTLossForward R Fr (B * C) cfg (reshape_3d C x) (reshape_3d C y) =
        (spectral_convergence_loss (B * C) (Fr cfg) (cfg.fft_size / 2 + 1)
            (stft R cfg (reshape_3d C x)) (stft R cfg (reshape_3d C y)),
         log_stft_magnitude_loss (B * C) (Fr cfg) (cfg.fft_size / 2 + 1)
            (stft R cfg (reshape_3d C x)) (stft R cfg (reshape_3d C y))) := by
  refine ⟨?_, fun _ => rfl⟩
  show MultiResolutionSTFTLossForward2 R Fr (B * C) cfgs
    (reshape_3d C x) (reshape_3d C y) = _
  simp only [MultiResolutionSTFTLossForward2, foldl_add_pair
    (fun cfg => (STFTLossForward R Fr (B * C) cfg (reshape_3d C x) (reshape_3d C y)).1)
    (fun cfg => (STFTLossForward R Fr (B * C) cfg (reshape_3d C x) (reshape_3d C y)).2)
    cfgs ((0 : ℝ), (0 : ℝ)), zero_add]

/-- Witness for C3 with one resolution, the trivial STFT primitive and a
zero signal. -/
theorem multiResolutionSTFTLoss_forward_spec_witness :
    MultiResolutionSTFTLossForward3 (fun _ _ _ _ => ((0 : ℝ), (0 : ℝ))) (fun _ => 1)
        1 1 [⟨1024, 120, 600, "hann"⟩] (fun _ _ _ => 0) (fun _ _ _ => 0) =
      (((([⟨1024, 120, 600, "hann"⟩] : List STFTCfg).map fun cfg =>
          (STFTLossForward (fun _ _ _ _ => ((0 : ℝ), (0 : ℝ))) (fun _ => 1) (1 * 1) cfg
            (reshape_3d 1 fun _ _ _ => 0) (reshape_3d 1 fun _ _ _ => 0)).1).sum /
        ((1 : ℕ) : ℝ)),
       ((([⟨1024, 120, 600, "hann"⟩] : List STFTCfg).map fun cfg =>
          (STFTLossForward (fun _ _ _ _ => ((0 : ℝ), (0 : ℝ))) (fun _ => 1) (1 * 1) cfg
            (reshape_3d 1 fun _ _ _ => 0) (reshape_3d 1 fun _ _ _ => 0)).2).sum /
        ((1 : ℕ) : ℝ))) :=
  (multiResolutionSTFTLoss_forward_spec (fun _ _ _ _ => ((0 : ℝ), (0 : ℝ))) (fun _ => 1)
    1 1 [⟨1024, 120, 600, "hann"⟩] (fun _ _ _ => 0) (fun _ _ _ => 0) (by simp)).1

/-- Claim C5: every entry of the magnitude spectrogram returned by `stft` is
at least `sqrt(1e-7)`, which is strictly positive; the denominator of
`SpectralConvergenceLoss` (clipped to at least `1e-10`) and the arguments
of the logarithms in `LogSTFTMagnitudeLoss` (clipped to at least `1e-7`)
are always strictly positive. -/
theorem stft_positive_spec :
    (∀ (R : RawStft) (cfg : STFTCfg) (x : ℕ → ℕ → ℝ) (b t f : ℕ),
        Real.sqrt (1e-7 : ℝ) ≤ stft R cfg x b t f) ∧
    (0 : ℝ) < Real.sqrt (1e-7 : ℝ) ∧
    (∀ (B F K : ℕ) (y_mag : ℕ → ℕ → ℕ → ℝ),
        (0 : ℝ) < max (froNorm B F K y_mag) (1e-10 : ℝ)) ∧
    (∀ (x_mag : ℕ → ℕ → ℕ → ℝ) (b t f : ℕ),
        (0 : ℝ) < max (x_mag b t f) (1e-7 : ℝ)) := by
  refine ⟨?_, ?_, ?_, ?_⟩
  · intro R cfg x b t f
    exact Real.sqrt_le_sqrt (le_max_right _ _)
  · exact Real.sqrt_pos.mpr (by norm_num)
  · intro B F K y
    exact lt_of_lt_of_le (by norm_num) (le_max_right _ _)
  · intro m b t f
    exact lt_of_lt_of_le (by norm_num) (le_max_right _ _)

lemma genAdvSum_eq (lt : GenLossType) :
    ∀ outputs : List DiscOutput,
      (∀ o ∈ outputs, ∀ xs, o = DiscOutput.feats xs → xs ≠ []) →
      genAdvSum lt outputs =
        some ((outputs.map fun o => genCriterion lt (discLastTensor o)).sum)
  | [], _ => by simp [genAdvSum]
  | o :: os, hwf => by
    have ih := genAdvSum_eq lt os fun o ho xs hxs => hwf o (List.mem_cons_of_mem _ ho) xs hxs
    cases o with
    | tensor x =>
      simp [genAdvSum, ih, discLastTensor]
    | feats xs =>
      have hxs : xs ≠ [] := hwf _ (List.mem_cons_self _ _) xs rfl
      obtain ⟨a, ha⟩ := Option.isSome_iff_exists.mp (List.getLast?_isSome.mpr hxs)
      simp [genAdvSum, ih, discLastTensor, ha, List.getLastD_eq_getLast?]

/-- Claim C7: on a non-empty list of discriminator outputs (with non-empty
feature-map lists), `GeneratorAdversarialLoss.forward` returns the sum of
the criterion over the outputs — taking the last element of an entry that
is itself a list — divided by the number of outputs when
`average_by_discriminators` is set, and the bare sum otherwise; on an empty
list with averaging enabled it raises (the loop index serving as divisor is
never bound). -/
theorem generatorAdversarialLoss_forward_spec (avg : Bool) (lt : GenLossType)
    (outputs : List DiscOutput) (hne : outputs ≠ [])
    (hwf : ∀ o ∈ outputs, ∀ xs, o = DiscOutput.feats xs → xs ≠ []) :
    (GeneratorAdversarialLossForward avg lt (.list outputs) =
      some (if avg then
        ((outputs.map fun o => genCriterion lt (discLastTensor o)).sum) /
          (outputs.length : ℝ)
      else (outputs.map fun o => genCriterion lt (discLastTensor o)).sum)) ∧
    GeneratorAdversarialLossForward true lt (.list []) = none := by
  constructor
  · have hlen : outputs.length ≠ 0 := fun h => hne (List.length_eq_zero.mp h)
    cases avg <;>
      simp [GeneratorAdversarialLossForward, genAdvSum_eq lt outputs hwf, hlen]
  · rfl

/-- Witness for C7: two outputs (one plain tensor, one feature-map list),
`average_by_discriminators = true`, mse criterion. -/
theorem generatorAdversarialLoss_forward_spec_witness :
    GeneratorAdversarialLossForward true GenLossType.mse
        (.list [DiscOutput.tensor [0], DiscOutput.feats [[1]]]) =
      some ((([DiscOutput.tensor [0], DiscOutput.feats [[1]]].map
          fun o => genCriterion GenLossType.mse (discLastTensor o)).sum) /
        (([DiscOutput.tensor [0], DiscOutput.feats [[1]]] : List DiscOutput).length : ℝ)) := by
  have h := (generatorAdversarialLoss_forward_spec true GenLossType.mse
    [DiscOutput.tensor [0], DiscOutput.feats [[1]]] (by simp)
    (by intro o ho xs hxs; subst hxs; simp at ho; subst ho; simp)).1
  simpa using h

/-- Claim C8: `MelSpectrogram.__init__` raises `ValueError` iff the window is
a non-`None` name missing from `scipy.signal.windows` or `log_base` is none
of `None`, `2.0`, `10.0`; on success, `forward` applies the natural,
base-2 or base-10 logarithm respectively to the (clipped) mel
spectrogram. -/
theorem melSpectrogram_init_spec (hasWindow : String → Bool) (melmat : ℕ → ℕ → ℝ)
    (fft_size hop_size : ℕ) (win_length : Option ℕ) (window : Option String)
    (center normalized onesided : Bool) (eps : ℝ) (log_base : Option ℝ) :
    (MelSpectrogramInit hasWindow melmat fft_size hop_size win_length window
        center normalized onesided eps log_base = none ↔
      (∃ w, window = some w ∧ hasWindow w = false) ∨
        ¬(log_base = none ∨ log_base = some 2 ∨ log_base = some 10)) ∧
    (∀ cfg, MelSpectrogramInit hasWindow melmat fft_size hop_size win_length window
        center normalized onesided eps log_base = some cfg →
      (log_base = none → cfg.log = Real.log) ∧
      (log_base = some 2 → cfg.log = Real.logb 2) ∧
      (log_base = some 10 → cfg.log = Real.logb 10)) ∧
    (∀ (Rm : MelSpectrogramCfg → (ℕ → ℝ) → ℕ → ℕ → ℝ × ℝ) (cfg : MelSpectrogramCfg)
        (KFreq : ℕ) (x : ℕ → ℕ → ℝ) (b m t : ℕ),
      MelSpectrogramForward Rm cfg KFreq x b m t =
        cfg.log (max (∑ f ∈ range KFreq,
          Real.sqrt (max ((Rm cfg (x b) f t).1 ^ 2 + (Rm cfg (x b) f t).2 ^ 2) cfg.eps) *
            cfg.melmat f m) cfg.eps)) := by
  refine ⟨?_, ?_, fun _ _ _ _ _ _ _ => rfl⟩
  · unfold MelSpectrogramInit
    cases window with
    | none =>
      cases log_base with
      | none => simp
      | some b =>
        by_cases hb2 : b = 2
        · simp [hb2]
        · by_cases hb10 : b = 10
          · simp [hb10, hb2]
          · simp [hb2, hb10]
    | some w =>
      cases hhw : hasWindow w with
      | false => simp [hhw]
      | true =>
        cases log_base with
        | none => simp [hhw]
        | some b =>
          by_cases hb2 : b = 2
          · simp [hhw, hb2]
          · by_cases hb10 : b = 10
            · simp [hhw, hb10, hb2]
            · simp [hhw, hb2, hb10]
  · intro cfg hcfg
    unfold MelSpectrogramInit at hcfg
    refine ⟨?_, ?_, ?_⟩ <;> intro hbase <;> subst hbase <;> split at hcfg <;>
      simp_all <;> rw [← hcfg]

/-- Witness for C8: the successful construction with `window = "hann"`
(present in the table), `log_base = 10.0`, selects the base-10
logarithm. -/
theorem melSpectrogram_init_spec_witness :
    (⟨1024, 1024, 256, true, false, true, some "hann", (1e-10 : ℝ), fun _ _ => 0,
        some 10, Real.logb 10⟩ : MelSpectrogramCfg).log = Real.logb 10 := by
  refine ((melSpectrogram_init_spec (fun _ => true) (fun _ _ => 0) 1024 256 none
    (some "hann") true false true (1e-10 : ℝ) (some 10)).2.1 _ ?_).2.2 rfl
  unfold MelSpectrogramInit
  norm_num

/-- Claim C9: the stateless loss functions are deterministic: two calls of
`guided_attention_loss`, `weighted_mean`, `masked_l1_loss` or `ssim` on
equal inputs under the same configuration return equal results. -/
theorem losses_deterministic (B N T : ℕ) (aw aw' : ℕ → ℕ → ℕ → ℝ)
    (dec dec' enc enc' : ℕ → ℕ) (g g' : ℝ)
    (i1 i2 w1 w2 p1 p2 t1 t2 m1 m2 : Ten)
    (B2 C H W ws : ℕ) (ia ia' ib ib' : ℕ → ℕ → ℕ → ℕ → ℝ) (sa : Bool)
    (h1 : aw = aw') (h2 : dec = dec') (h3 : enc = enc') (h4 : g = g')
    (h5 : i1 = i2) (h6 : w1 = w2)
    (h7 : p1 = p2) (h8 : t1 = t2) (h9 : m1 = m2)
    (h10 : ia = ia') (h11 : ib = ib') :
    guided_attention_loss B N T aw dec enc g =
      guided_attention_loss B N T aw' dec' enc' g' ∧
    weighted_mean i1 w1 = weighted_mean i2 w2 ∧
    masked_l1_loss p1 t1 m1 = masked_l1_loss p2 t2 m2 ∧
    ssim B2 C H W ws ia ib sa = ssim B2 C H W ws ia' ib' sa := by
  subst h1; subst h2; subst h3; subst h4; subst h5; subst h6
  subst h7; subst h8; subst h9; subst h10; subst h11
  exact ⟨rfl, rfl, rfl, rfl⟩

/-- Witness for C9 at concrete equal inputs. -/
theorem losses_deterministic_witness :
    guided_attention_loss 1 1 1 (fun _ _ _ => 0) (fun _ => 1) (fun _ => 1) 1 =
      guided_attention_loss 1 1 1 (fun _ _ _ => 0) (fun _ => 1) (fun _ => 1) 1 ∧
    weighted_mean ⟨[1], fun _ => 0⟩ ⟨[1], fun _ => 1⟩ =
      weighted_mean ⟨[1], fun _ => 0⟩ ⟨[1], fun _ => 1⟩ ∧
    masked_l1_loss ⟨[1], fun _ => 0⟩ ⟨[1], fun _ => 0⟩ ⟨[1], fun _ => 1⟩ =
      masked_l1_loss ⟨[1], fun _ => 0⟩ ⟨[1], fun _ => 0⟩ ⟨[1], fun _ => 1⟩ ∧
    ssim 1 1 1 1 1 (fun _ _ _ _ => 0) (fun _ _ _ _ => 0) true =
      ssim 1 1 1 1 1 (fun _ _ _ _ => 0) (fun _ _ _ _ => 0) true :=
  losses_deterministic 1 1 1 (fun _ _ _ => 0) (fun _ _ _ => 0)
    (fun _ => 1) (fun _ => 1) (fun _ => 1) (fun _ => 1) 1 1
    ⟨[1], fun _ => 0⟩ ⟨[1], fun _ => 0⟩ ⟨[1], fun _ => 1⟩ ⟨[1], fun _ => 1⟩
    ⟨[1], fun _ => 0⟩ ⟨[1], fun _ => 0⟩ ⟨[1], fun _ => 0⟩ ⟨[1], fun _ => 0⟩
    ⟨[1], fun _ => 1⟩ ⟨[1], fun _ => 1⟩
    1 1 1 1 1 (fun _ _ _ _ => 0) (fun _ _ _ _ => 0) (fun _ _ _ _ => 0) (fun _ _ _ _ => 0)
    true rfl rfl rfl rfl rfl rfl rfl rfl rfl rfl rfl

end Losses
